import Mathlib

/-!
Shallow embedding of the `Logging` header-only C++ library
(`logging.hxx`, `logging_utils.hxx` / `multitarget.hxx`):
severity levels, the `LogSentry` scoped message builder, the `Logger`
registry tree, `canonicalName`, and the `MultiTarget` router.
Sink effects are modelled as event traces; each event names the target
(sink) object that received the hook and which hook was invoked.
-/

namespace Logging

/-- The two trace levels (`enum TraceLevel`): `LEVEL_TRACE = 0`, `LEVEL_DEBUG = 1`. -/
inductive TraceLevel
  | LEVEL_TRACE
  | LEVEL_DEBUG
deriving DecidableEq, Repr

/-- The four log levels (`enum LogLevel`), numbered from `LEVEL_DEBUG + 1 = 2`. -/
inductive LogLevel
  | LEVEL_INFO
  | LEVEL_WARNING
  | LEVEL_ERROR
  | LEVEL_FATAL
deriving DecidableEq, Repr

/-- Numeric value of a trace level, as fixed by the C++ enum. -/
def TraceLevel.toNat : TraceLevel → Nat
  | .LEVEL_TRACE => 0
  | .LEVEL_DEBUG => 1

/-- Numeric value of a log level, as fixed by the C++ enum (`LEVEL_INFO = LEVEL_DEBUG + 1`). -/
def LogLevel.toNat : LogLevel → Nat
  | .LEVEL_INFO => 2
  | .LEVEL_WARNING => 3
  | .LEVEL_ERROR => 4
  | .LEVEL_FATAL => 5

/-- Errors thrown by the library: `std::invalid_argument` from `Logger::child`
(the spec's `InvalidArgument`) and the `std::runtime_error` from
`MultiTarget::setActive` (the spec's `IndexOutOfRange`). -/
inductive LogError
  | invalidArgument
  | indexOutOfRange
deriving DecidableEq, Repr

/-- The sink hooks of the Sink Contract. `startT`/`startL` are the two
`startMessage` overloads, `put` the value-accept hook (values modelled as `Nat`),
`endMsg` the `endMessage` hook. -/
inductive Hook
  | startT (tl : TraceLevel)
  | startL (ll : LogLevel)
  | put (v : Nat)
  | endMsg
deriving DecidableEq, Repr

/-- One observed sink-hook invocation: which target (sink) object received it,
and which hook was called. Target objects are identified by a `Nat` id. -/
structure Ev where
  target : Nat
  hook : Hook
deriving DecidableEq, Repr

/-- The logger registry tree (`class Logger`). A node carries its name
(`mName`), the id of the shared target (`mTarget`), its threshold (`mLevel`,
an `unsigned char` in C++, here a `Nat`), and its children (`mChildren`;
each child stores its own map key as its `mName`, as `Logger::child` constructs
it that way). The parent back-pointer is not represented: it is used only by
`canonicalName`, which is modelled separately on ancestor-name chains. -/
inductive Logger where
  | node (mName : String) (mTarget : Nat) (mLevel : Nat) (mChildren : List Logger)

/-- `Logger::name()`. -/
def Logger.name : Logger → String
  | .node n _ _ _ => n

/-- `Logger::target()` (the id of the shared target). -/
def Logger.target : Logger → Nat
  | .node _ t _ _ => t

/-- `Logger::level()`. -/
def Logger.level : Logger → Nat
  | .node _ _ lv _ => lv

/-- The children map of a node, as a list. -/
def Logger.children : Logger → List Logger
  | .node _ _ _ cs => cs

/-- `Logger::setLevel`: set this node's level and recursively set it on all
children (`for (auto i : mChildren) i.second->setLevel(level)`). -/
def Logger.setLevel (lvl : Nat) : Logger → Logger
  | .node n t _ cs => .node n t lvl (cs.attach.map fun c => c.1.setLevel lvl)
decreasing_by
  have := List.sizeOf_lt_of_mem c.2
  simp only [Logger.node.sizeOf_spec]
  omega

/-- `Logger::setTarget`: set this node's target and recursively set it on all
children. -/
def Logger.setTarget (t : Nat) : Logger → Logger
  | .node n _ lv cs => .node n t lv (cs.attach.map fun c => c.1.setTarget t)
decreasing_by
  have := List.sizeOf_lt_of_mem c.2
  simp only [Logger.node.sizeOf_spec]
  omega

/-- A node together with all of its descendants, recursively. -/
def Logger.allNodes (l : Logger) : List Logger :=
  match l with
  | .node n t lv cs => .node n t lv cs :: (cs.attach.map fun c => c.1.allNodes).flatten
decreasing_by
  have := List.sizeOf_lt_of_mem c.2
  simp only [Logger.node.sizeOf_spec]
  omega

/-- The root-logger constructor `Logger(std::shared_ptr<Target> const &t,
std::string const &name = std::string())`: no parent, level `LEVEL_INFO`. -/
def Logger.mkRoot (t : Nat) (name : String := "") : Logger :=
  .node name t LogLevel.LEVEL_INFO.toNat []

/-- The default constructor `Logger()`: empty name, a freshly constructed
target (`new Target()`, modelled as an arbitrary fresh target id passed in),
no parent, level `LEVEL_INFO`. -/
def Logger.mkDefault (freshTarget : Nat) : Logger :=
  .node "" freshTarget LogLevel.LEVEL_INFO.toNat []

/-- `Logger::isEnabled(LogLevel)`: `level >= mLevel`. -/
def Logger.isEnabledLog (l : Logger) (level : LogLevel) : Bool :=
  level.toNat ≥ l.level

/-- `Logger::isEnabled(TraceLevel)`: `(level >= mLevel) && trace`, where
`trace` is the compile-time template parameter of the `Logger` type. -/
def Logger.isEnabledTrace (trace : Bool) (l : Logger) (level : TraceLevel) : Bool :=
  (decide (level.toNat ≥ l.level)) && trace

/-- The lookup `mChildren.find(name)`: the children map is keyed by the
child's name, and every child stores its key as its own `mName`. -/
def findChild (cs : List Logger) (name : String) : Option Logger :=
  cs.find? fun c => c.name == name

/-- `Logger::child(name)`: throws `std::invalid_argument` when the name is
empty; otherwise returns the existing child of that name, or constructs
`Logger(name, mTarget, this, mLevel)` and inserts it. The result pairs the
(possibly updated) parent node with the returned child (or the error). -/
def Logger.child (l : Logger) (name : String) : Logger × Except LogError Logger :=
  if name.length = 0 then
    (l, .error .invalidArgument)
  else
    match findChild l.children name with
    | some c => (l, .ok c)
    | none =>
        let c : Logger := .node name l.target l.level []
        (.node l.name l.target l.level (l.children ++ [c]), .ok c)

/-! ## The scoped message builder (`LogSentry`)

`LogSentry<Target, true, LoggerType>` holds `Target &mTarget` (a reference to
the target object captured at construction — not the logger's current
target), the source logger and `bool mEnabled`. The constructor calls
`mTarget.startMessage` when enabled, `operator<<` calls `mTarget.put` when
enabled, and the destructor calls `mTarget.endMessage` when enabled. Each
member function is modelled as the list of sink-hook events it emits. -/

/-- The active sentry's state: the captured target reference (as an id) and
the enabled flag. -/
structure LogSentry where
  mTarget : Nat
  mEnabled : Bool
deriving DecidableEq, Repr

/-- The `LogSentry(Target&, LoggerType const&, LogLevel, bool)` constructor:
produces the constructed sentry and the events it emits (a `startMessage`
call iff enabled). -/
def LogSentry.mkL (target : Nat) (ll : LogLevel) (enabled : Bool) :
    LogSentry × List Ev :=
  (⟨target, enabled⟩, if enabled then [⟨target, .startL ll⟩] else [])

/-- The `LogSentry(Target&, LoggerType const&, TraceLevel, bool)` constructor. -/
def LogSentry.mkT (target : Nat) (tl : TraceLevel) (enabled : Bool) :
    LogSentry × List Ev :=
  (⟨target, enabled⟩, if enabled then [⟨target, .startT tl⟩] else [])

/-- `LogSentry::operator<<(ValueT const &v)`: a `put` call on the captured
target iff enabled. -/
def LogSentry.putEv (s : LogSentry) (v : Nat) : List Ev :=
  if s.mEnabled then [⟨s.mTarget, .put v⟩] else []

/-- `LogSentry::~LogSentry()`: an `endMessage` call on the captured target
iff enabled. -/
def LogSentry.dtor (s : LogSentry) : List Ev :=
  if s.mEnabled then [⟨s.mTarget, .endMsg⟩] else []

/-- One append step of a log statement: the value passed to `operator<<`,
and whether the sink's `put` raises an exception during this call. -/
structure Append where
  val : Nat
  throws : Bool
deriving DecidableEq, Repr

/-- The sequence of events emitted while streaming values into an active
sentry. A throwing `put` still counts as an invocation of the hook, but
aborts the rest of the statement (the remaining appends never run). -/
def LogSentry.appendRun (s : LogSentry) : List Append → List Ev
  | [] => []
  | a :: rest => s.putEv a.val ++ (if a.throws then [] else s.appendRun rest)

/-- A complete log statement through an active sentry constructed with the
`LogLevel` constructor: construction, the appends (possibly aborted by an
exception), then the destructor — which C++ runs on every exit path,
normal fallthrough and exception alike. -/
def logStatement (target : Nat) (ll : LogLevel) (enabled : Bool)
    (appends : List Append) : List Ev :=
  let (s, ctorEvs) := LogSentry.mkL target ll enabled
  ctorEvs ++ s.appendRun appends ++ s.dtor

/-- A log statement in which the sentry value is copied before being
destroyed (`LogSentry(LogSentry const &) = default` copies `mTarget`,
`mSource` and `mEnabled`): both the copy and the original are eventually
destroyed, and each destructor runs the `mEnabled` check independently. -/
def logStatementCopied (target : Nat) (ll : LogLevel) (enabled : Bool)
    (appends : List Append) : List Ev :=
  let (s, ctorEvs) := LogSentry.mkL target ll enabled
  let s2 := s
  ctorEvs ++ s.appendRun appends ++ s2.dtor ++ s.dtor

/-- Number of `startMessage` invocations in a trace. -/
def countStart (evs : List Ev) : Nat :=
  evs.countP fun e =>
    match e.hook with
    | .startT _ => true
    | .startL _ => true
    | _ => false

/-- Number of `endMessage` invocations in a trace. -/
def countEnd (evs : List Ev) : Nat :=
  evs.countP fun e => e.hook == Hook.endMsg

/-! ## The elided builder (`LogSentry<Target, false, LoggerType>`)

An empty shell: the constructor has an empty body, `operator<<` returns
`*this` without touching the target, and the implicit destructor does
nothing. -/

/-- The elided sentry carries no state. -/
structure ElidedLogSentry where
deriving DecidableEq, Repr

/-- The elided constructor `LogSentry(Target &, LoggerType const &,
TraceLevel, bool)`: empty body, no events. -/
def ElidedLogSentry.mkT (_target : Nat) (_tl : TraceLevel) (_enabled : Bool) :
    ElidedLogSentry × List Ev :=
  (⟨⟩, [])

/-- The elided `operator<<`: returns itself, no events. -/
def ElidedLogSentry.putEv (_s : ElidedLogSentry) (_v : Nat) : List Ev :=
  []

/-- The elided (implicit) destructor: no events. -/
def ElidedLogSentry.dtor (_s : ElidedLogSentry) : List Ev :=
  []

/-- Streaming a sequence of values into an elided sentry. -/
def ElidedLogSentry.appendRun (s : ElidedLogSentry) : List Append → List Ev
  | [] => []
  | a :: rest => s.putEv a.val ++ (if a.throws then [] else s.appendRun rest)

/-- A complete trace statement through the elided sentry. -/
def elidedStatement (target : Nat) (tl : TraceLevel) (enabled : Bool)
    (appends : List Append) : List Ev :=
  let (s, ctorEvs) := ElidedLogSentry.mkT target tl enabled
  ctorEvs ++ s.appendRun appends ++ s.dtor

/-- `Logger::operator<<(LogLevel)`: always instantiates the active sentry
(`LogSentry<Target, true, Logger>`), with enablement `ll >= mLevel`.
The whole statement (construction, appends, destruction) is modelled. -/
def Logger.logMessage (l : Logger) (ll : LogLevel) (appends : List Append) :
    List Ev :=
  logStatement l.target ll (decide (ll.toNat ≥ l.level)) appends

/-- `Logger::operator<<(TraceLevel)`: instantiates
`LogSentry<Target, trace, Logger>` with enablement `tl >= mLevel` — the
active variant when the compile-time `trace` parameter is `true`, the elided
variant when it is `false`. -/
def Logger.traceMessage (trace : Bool) (l : Logger) (tl : TraceLevel)
    (appends : List Append) : List Ev :=
  if trace then
    let (s, ctorEvs) := LogSentry.mkT l.target tl (decide (tl.toNat ≥ l.level))
    ctorEvs ++ s.appendRun appends ++ s.dtor
  else
    elidedStatement l.target tl (decide (tl.toNat ≥ l.level)) appends

/-! ## The multi-sink router (`MultiTarget<SubTargets...>`)

The variadic member list (`N ≥ 1`) is modelled as a head member plus the
remaining members, mirroring `TargetHolder<targetIndex, Target, Remaining...>`
versus the base specialization `TargetHolder<targetIndex, Target>`. Each
member is a sink identified by its `Nat` id. Dispatch walks the list
comparing the requested index with the holder's position (here: decrementing
a relative index); the base specialization ignores the index and fires
unconditionally. -/

namespace TargetHolder

/-- `TargetHolder::startMessage(index, source, ll)`: fire this member's hook
when the index matches (or when this is the last member), else recurse. -/
def startL (t : Nat) (rest : List Nat) (index : Nat) (ll : LogLevel) : Ev :=
  match rest, index with
  | [], _ => ⟨t, .startL ll⟩
  | _ :: _, 0 => ⟨t, .startL ll⟩
  | t' :: rest', i + 1 => startL t' rest' i ll

/-- `TargetHolder::startMessage(index, source, tl)` (trace overload). -/
def startT (t : Nat) (rest : List Nat) (index : Nat) (tl : TraceLevel) : Ev :=
  match rest, index with
  | [], _ => ⟨t, .startT tl⟩
  | _ :: _, 0 => ⟨t, .startT tl⟩
  | t' :: rest', i + 1 => startT t' rest' i tl

/-- `TargetHolder::endMessage(index, source)`. -/
def endM (t : Nat) (rest : List Nat) (index : Nat) : Ev :=
  match rest, index with
  | [], _ => ⟨t, .endMsg⟩
  | _ :: _, 0 => ⟨t, .endMsg⟩
  | t' :: rest', i + 1 => endM t' rest' i

/-- `TargetHolder::put(index, source, v)`. -/
def putV (t : Nat) (rest : List Nat) (index : Nat) (v : Nat) : Ev :=
  match rest, index with
  | [], _ => ⟨t, .put v⟩
  | _ :: _, 0 => ⟨t, .put v⟩
  | t' :: rest', i + 1 => putV t' rest' i v

/-- `TargetHolder::maxIndex()`: defined only on the base specialization,
where it returns that holder's `targetIndex` (the last position); the
recursive holders inherit it. `pos` is the position of the current holder,
`0` at the top-level call. -/
def maxIndex (rest : List Nat) (pos : Nat) : Nat :=
  match rest with
  | [] => pos
  | _ :: rest' => maxIndex rest' (pos + 1)

end TargetHolder

/-- The router state: `mActiveTarget` plus the member list (head + rest,
enforcing `N ≥ 1`). The constructor sets `mActiveTarget` to `0`. -/
structure MultiTarget where
  mActiveTarget : Nat
  head : Nat
  rest : List Nat
deriving DecidableEq, Repr

/-- `MultiTarget(SubTargets... targets)`: active index starts at 0. -/
def MultiTarget.mk' (head : Nat) (rest : List Nat) : MultiTarget :=
  ⟨0, head, rest⟩

/-- `MultiTarget::startMessage(source, ll)`. -/
def MultiTarget.startL (m : MultiTarget) (ll : LogLevel) : Ev :=
  TargetHolder.startL m.head m.rest m.mActiveTarget ll

/-- `MultiTarget::endMessage(source)`. -/
def MultiTarget.endM (m : MultiTarget) : Ev :=
  TargetHolder.endM m.head m.rest m.mActiveTarget

/-- `MultiTarget::put(source, v)`. -/
def MultiTarget.putV (m : MultiTarget) (v : Nat) : Ev :=
  TargetHolder.putV m.head m.rest m.mActiveTarget v

/-- `mSubtargets.maxIndex()` as seen from the router: the base holder sits at
position `N - 1`. -/
def MultiTarget.maxIndex (m : MultiTarget) : Nat :=
  TargetHolder.maxIndex m.rest 0

/-- `MultiTarget::setActive(index)`: throws (the spec's `IndexOutOfRange`)
when `index > maxIndex()`, otherwise updates `mActiveTarget`. The C++ throw
happens before the assignment, so on failure the state is unchanged. -/
def MultiTarget.setActive (m : MultiTarget) (index : Nat) :
    Except LogError MultiTarget :=
  if index > m.maxIndex then
    .error .indexOutOfRange
  else
    .ok { m with mActiveTarget := index }

/-- A full message sequence driven through the router: one `startMessage`,
one `put` per value, one `endMessage`, each call dispatched against the
router state current at that call. -/
def MultiTarget.fullMessage (m : MultiTarget) (ll : LogLevel) (vals : List Nat) :
    List Ev :=
  m.startL ll :: vals.map m.putV ++ [m.endM]

/-! ## `canonicalName` (`logging_utils.hxx`)

`canonicalName(l, separator)` recurses through `l.parent()`. Since only the
name chain matters, a logger is modelled here as its own name plus the names
of its ancestors, nearest parent first (empty list for a root, whose
`parent()` is null). -/

/-- A logger as seen by `canonicalName`: its own name and the chain of
ancestor names, nearest parent first. -/
structure NamedNode where
  mName : String
  ancestors : List String
deriving DecidableEq, Repr

/-- `Logger::parent()`: the nearest ancestor, or none for a root. -/
def NamedNode.parentNode (l : NamedNode) : Option NamedNode :=
  match l.ancestors with
  | [] => none
  | p :: rest => some ⟨p, rest⟩

/-- `Logger::child(name)` as it affects the name chain: the child's parent
chain extends the parent's own. -/
def NamedNode.childNode (l : NamedNode) (name : String) : NamedNode :=
  ⟨name, l.mName :: l.ancestors⟩

/-- Recursion of `canonicalName` over the ancestor chain: with no parent the
name itself; with a parent of non-empty name, the parent's canonical name
joined with the separator; with a parent of empty name, just the name. -/
def canonicalNameAux (separator : String) : List String → String → String
  | [], name => name
  | p :: rest, name =>
      if p.length > 0 then
        canonicalNameAux separator rest p ++ separator ++ name
      else
        name

/-- `canonicalName(l, separator)`: if `l.parent()` exists and the parent's
name is non-empty, `canonicalName(*l.parent(), separator) + separator +
l.name()`, else just `l.name()`. -/
def canonicalName (l : NamedNode) (separator : String := "::") : String :=
  canonicalNameAux separator l.ancestors l.mName

/-- `Logger::operator<<(LogLevel)` as the constructed sentry together with the
construction events: `LogSentry<Target, true, Logger>(*mTarget, *this, ll,
ll >= mLevel)`. The sentry captures a reference to the logger's current
target object at this moment. -/
def Logger.beginLog (l : Logger) (ll : LogLevel) : LogSentry × List Ev :=
  LogSentry.mkL l.target ll (decide (ll.toNat ≥ l.level))

/-- A two-member router `MultiTarget` over sinks `A` (id 10) and `B` (id 20),
as constructed by `MultiTarget(a, b)`: active index 0. -/
def routerAB : MultiTarget :=
  MultiTarget.mk' 10 [20]

/-- The same router after `setActive(1)` succeeds. -/
def routerAB1 : MultiTarget :=
  ⟨1, 10, [20]⟩

/-! ## Helper lemmas -/

/-- Unfolding of `Logger.setLevel` on a node. -/
theorem Logger.setLevel_node (lvl : Nat) (n : String) (t lv : Nat)
    (cs : List Logger) :
    Logger.setLevel lvl (.node n t lv cs) =
      .node n t lvl (cs.map (Logger.setLevel lvl)) := by
  rw [Logger.setLevel]
  exact congrArg _ (List.attach_map_val cs _)

/-- Unfolding of `Logger.setTarget` on a node. -/
theorem Logger.setTarget_node (t : Nat) (n : String) (t0 lv : Nat)
    (cs : List Logger) :
    Logger.setTarget t (.node n t0 lv cs) =
      .node n t lv (cs.map (Logger.setTarget t)) := by
  rw [Logger.setTarget]
  exact congrArg _ (List.attach_map_val cs _)

/-- Unfolding of `Logger.allNodes` on a node. -/
theorem Logger.allNodes_node (n : String) (t lv : Nat) (cs : List Logger) :
    (Logger.node n t lv cs).allNodes =
      .node n t lv cs :: (cs.map Logger.allNodes).flatten := by
  rw [Logger.allNodes]
  exact congrArg _ (congrArg _ (List.attach_map_val cs _))

/-- Structural induction over the logger tree. -/
theorem Logger.ind {motive : Logger → Prop}
    (h : ∀ n t lv cs, (∀ c ∈ cs, motive c) → motive (.node n t lv cs)) :
    ∀ l, motive l
  | .node n t lv cs => h n t lv cs fun c hc => Logger.ind h c
termination_by l => sizeOf l
decreasing_by
  have := List.sizeOf_lt_of_mem hc
  simp only [Logger.node.sizeOf_spec]
  omega

/-- The active sentry's append run contains no `endMessage` event. -/
theorem LogSentry.countEnd_appendRun (s : LogSentry) :
    ∀ appends, countEnd (s.appendRun appends) = 0
  | [] => by simp [LogSentry.appendRun, countEnd]
  | a :: rest => by
    have ih := s.countEnd_appendRun rest
    simp only [LogSentry.appendRun, LogSentry.putEv, countEnd,
      List.countP_append] at ih ⊢
    split <;> split <;> simp_all

/-- The active sentry's append run contains no `startMessage` event. -/
theorem LogSentry.countStart_appendRun (s : LogSentry) :
    ∀ appends, countStart (s.appendRun appends) = 0
  | [] => by simp [LogSentry.appendRun, countStart]
  | a :: rest => by
    have ih := s.countStart_appendRun rest
    simp only [LogSentry.appendRun, LogSentry.putEv, countStart,
      List.countP_append] at ih ⊢
    split <;> split <;> simp_all

/-- Every event the active sentry's append run emits goes to the target
captured at construction. -/
theorem LogSentry.appendRun_target (s : LogSentry) :
    ∀ appends, ∀ e ∈ s.appendRun appends, e.target = s.mTarget
  | [] => by simp [LogSentry.appendRun]
  | a :: rest => by
    have ih := s.appendRun_target rest
    intro e he
    simp only [LogSentry.appendRun, LogSentry.putEv, List.mem_append] at he
    rcases he with he | he
    · split at he <;> simp_all
    · split at he
      · simp at he
      · exact ih e he

/-- The elided sentry's append run emits nothing. -/
theorem ElidedLogSentry.appendRun_nil (s : ElidedLogSentry) :
    ∀ appends, s.appendRun appends = []
  | [] => rfl
  | a :: rest => by
    have ih := s.appendRun_nil rest
    simp only [ElidedLogSentry.appendRun, ElidedLogSentry.putEv,
      List.nil_append]
    split <;> simp [ih]

/-- The base `TargetHolder` sits `rest.length` positions below the holder at
position `pos`, so the inherited `maxIndex` is `pos + rest.length`. -/
theorem TargetHolder.maxIndex_shift :
    ∀ (rest : List Nat) (pos : Nat),
      TargetHolder.maxIndex rest pos = pos + rest.length
  | [], pos => by simp [TargetHolder.maxIndex]
  | t :: rest, pos => by
    simp [TargetHolder.maxIndex, TargetHolder.maxIndex_shift rest (pos + 1)]
    omega

/-! ## Claim theorems -/

/-- C1 (counterexample): the claim asserts that an active, enabled builder
fires `endMessage` exactly once per `startMessage` even when the builder
value is copied before being destroyed. The defaulted copy constructor
copies `mEnabled`, so destroying the copy and the original each fires
`endMessage`: one `startMessage`, two `endMessage` calls. -/
theorem sentry_copy_double_end_cex :
    countStart (logStatementCopied 0 .LEVEL_INFO true []) = 1 ∧
    countEnd (logStatementCopied 0 .LEVEL_INFO true []) = 2 := by
  decide

/-- C1 (amended): for an active builder with resolved enablement `true`,
`endMessage` is invoked exactly once per `startMessage` on every exit path —
normal completion and an exception thrown while appending a value — provided
the builder value is not copied; if the builder is copied before being
destroyed, each destroyed copy fires `endMessage` once, so one copy plus the
original yield two `endMessage` calls for the one `startMessage`. -/
theorem sentry_end_once (target : Nat) (ll : LogLevel) (appends : List Append) :
    countStart (logStatement target ll true appends) = 1 ∧
    countEnd (logStatement target ll true appends) = 1 ∧
    countStart (logStatementCopied target ll true appends) = 1 ∧
    countEnd (logStatementCopied target ll true appends) = 2 := by
  have hs := LogSentry.countStart_appendRun ⟨target, true⟩ appends
  have he := LogSentry.countEnd_appendRun ⟨target, true⟩ appends
  simp only [logStatement, logStatementCopied, LogSentry.mkL, LogSentry.dtor,
    countStart, countEnd, List.countP_append] at hs he ⊢
  simp_all [countStart, countEnd]

/-- C2 (confirmed): `isEnabled` on a log-category severity holds iff the
severity is at least the logger's threshold — the compile-time trace flag
does not occur in `Logger::isEnabled(LogLevel)` at all — and `isEnabled` on
a trace-category severity holds iff the severity is at least the threshold
and the logger's compile-time `trace` flag is `true`. -/
theorem isEnabled_threshold (trace : Bool) (l : Logger) (s : LogLevel)
    (t : TraceLevel) :
    (l.isEnabledLog s = true ↔ s.toNat ≥ l.level) ∧
    (l.isEnabledTrace trace t = true ↔ (t.toNat ≥ l.level ∧ trace = true)) := by
  simp [Logger.isEnabledLog, Logger.isEnabledTrace]

/-- C3 (confirmed): with the compile-time trace flag `false`, a
trace-category message goes through the elided builder variant and invokes
no sink hook at all, for any logger (hence any threshold), any trace level
and any sequence of appended values; and the elided builder by itself never
emits a hook for any target, enablement or append sequence. -/
theorem trace_elided_no_hooks (l : Logger) (tl : TraceLevel)
    (appends : List Append) :
    Logger.traceMessage false l tl appends = [] ∧
    (∀ (target : Nat) (enabled : Bool),
      elidedStatement target tl enabled appends = []) := by
  constructor
  · simp [Logger.traceMessage, elidedStatement, ElidedLogSentry.mkT,
      ElidedLogSentry.dtor, ElidedLogSentry.appendRun_nil]
  · intro target enabled
    simp [elidedStatement, ElidedLogSentry.mkT, ElidedLogSentry.dtor,
      ElidedLogSentry.appendRun_nil]

/-- C10 (confirmed): both root constructors set the threshold to
`LEVEL_INFO`, so immediately after construction every log-category severity
is enabled (they are all `≥ LEVEL_INFO`) and no trace-category severity is
enabled, for either value of the compile-time trace flag. -/
theorem root_threshold_info (t freshTarget : Nat) (name : String)
    (trace : Bool) :
    (Logger.mkRoot t name).level = LogLevel.LEVEL_INFO.toNat ∧
    (Logger.mkDefault freshTarget).level = LogLevel.LEVEL_INFO.toNat ∧
    (∀ s : LogLevel, (Logger.mkRoot t name).isEnabledLog s = true) ∧
    (∀ tl : TraceLevel,
      (Logger.mkRoot t name).isEnabledTrace trace tl = false) ∧
    (∀ s : LogLevel, (Logger.mkDefault freshTarget).isEnabledLog s = true) ∧
    (∀ tl : TraceLevel,
      (Logger.mkDefault freshTarget).isEnabledTrace trace tl = false) := by
  refine ⟨rfl, rfl, ?_, ?_, ?_, ?_⟩ <;> intro lv <;> cases lv <;>
    simp [Logger.mkRoot, Logger.mkDefault, Logger.isEnabledLog,
      Logger.isEnabledTrace, Logger.level, LogLevel.toNat, TraceLevel.toNat]

/-- C6 (confirmed): on the two-member router over sinks A (id 10) and B
(id 20), while the active index is 0 a full message sequence (`startMessage`,
one `put` per value, `endMessage`) is dispatched entirely to A — no hook ever
reaches B — and after `setActive(1)` succeeds, a subsequent full sequence is
dispatched entirely to B; each call is resolved against the router state
current at that call. -/
theorem router_dispatch_AB (ll : LogLevel) (vals : List Nat) :
    ((routerAB.fullMessage ll vals).all fun e => e.target == 10) = true ∧
    routerAB.setActive 1 = .ok routerAB1 ∧
    ((routerAB1.fullMessage ll vals).all fun e => e.target == 20) = true := by
  refine ⟨?_, rfl, ?_⟩ <;>
    simp [routerAB, routerAB1, MultiTarget.mk', MultiTarget.fullMessage,
      MultiTarget.startL, MultiTarget.putV, MultiTarget.endM,
      TargetHolder.startL, TargetHolder.putV, TargetHolder.endM,
      List.all_eq_true]

/-- C7 (confirmed): for a router with `N = rest.length + 1` member sinks,
`setActive(index)` fails with the index-out-of-range error iff
`index > N - 1` (equivalently `index > maxIndex()`), and otherwise updates
`mActiveTarget` to `index`; the C++ throw happens before the assignment, so
a failing call leaves the state unchanged, which the model reflects by
returning only the error. -/
theorem setActive_range (m : MultiTarget) (index : Nat) :
    m.maxIndex = (m.rest.length + 1) - 1 ∧
    (m.setActive index = .error .indexOutOfRange ↔ index > m.rest.length) ∧
    (index ≤ m.rest.length →
      m.setActive index = .ok { m with mActiveTarget := index }) := by
  have hmax : m.maxIndex = m.rest.length := by
    simp [MultiTarget.maxIndex, TargetHolder.maxIndex_shift]
  refine ⟨by omega, ?_, ?_⟩
  · constructor
    · intro h
      by_contra hgt
      simp [MultiTarget.setActive, hmax, Nat.not_lt.mp hgt] at h
    · intro h
      simp [MultiTarget.setActive, hmax, h]
  · intro h
    simp [MultiTarget.setActive, hmax, Nat.not_lt.mpr h]

/-- C7 witness: on the two-member router, `setActive 2` fails with the
index-out-of-range error and `setActive 1` succeeds, updating the index. -/
theorem setActive_range_witness :
    routerAB.setActive 2 = .error .indexOutOfRange ∧
    routerAB.setActive 1 = .ok { routerAB with mActiveTarget := 1 } := by
  constructor
  · exact (setActive_range routerAB 2).2.1.mpr (by decide)
  · exact (setActive_range routerAB 1).2.2 (by decide)

/-- C8 (confirmed): the sentry captures a reference to the target object at
construction (`Target &mTarget`), so every `put` and the final `endMessage`
of a builder already in flight go to the target the logger had when the
builder was created; `setTarget` only replaces the logger's shared pointer,
and only builders created afterwards bind the new target. -/
theorem setTarget_frame (l : Logger) (ll : LogLevel) (t' : Nat)
    (appends : List Append) :
    (l.beginLog ll).1.mTarget = l.target ∧
    (∀ e ∈ (l.beginLog ll).1.appendRun appends ++ (l.beginLog ll).1.dtor,
      e.target = l.target) ∧
    (l.setTarget t').target = t' ∧
    ((l.setTarget t').beginLog ll).1.mTarget = t' := by
  obtain ⟨n, t0, lv, cs⟩ := l
  refine ⟨rfl, ?_, ?_, ?_⟩
  · intro e he
    rcases List.mem_append.mp he with he | he
    · exact LogSentry.appendRun_target _ appends e he
    · simp only [LogSentry.dtor, Logger.beginLog, LogSentry.mkL] at he
      split at he <;> simp_all
  · simp [Logger.setTarget_node, Logger.target]
  · simp [Logger.setTarget_node, Logger.beginLog, LogSentry.mkL, Logger.target]

/-- C8 witness: a concrete instantiation — a root logger on target 3, an
in-flight builder for an `INFO` message, and a swap to target 9: the
in-flight builder's events stay on target 3 while a new builder binds 9. -/
theorem setTarget_frame_witness :
    ((Logger.mkRoot 3).beginLog .LEVEL_INFO).1.mTarget = 3 ∧
    (((Logger.mkRoot 3).setTarget 9).beginLog .LEVEL_INFO).1.mTarget = 9 := by
  have h := setTarget_frame (Logger.mkRoot 3) .LEVEL_INFO 9 []
  exact ⟨h.1, h.2.2.2⟩

/-- C9 (confirmed): `canonicalName` joins the name chain up to the root.
For the chain root `""` → `"svc"` → `"worker"` (built with `childNode`), the
canonical name is `"svc::worker"` with the default separator, and the root's
canonical name is `""`; in general, with a parent of non-empty name the
canonical name is the parent's canonical name, the separator, then the own
name, and with no parent or a parent of empty name it is just the own name. -/
theorem canonicalName_chain :
    canonicalName ((NamedNode.mk "" []).childNode "svc" |>.childNode "worker")
      = "svc::worker" ∧
    canonicalName (NamedNode.mk "" []) = "" ∧
    (∀ (name p : String) (rest : List String) (sep : String), p ≠ "" →
      canonicalName ⟨name, p :: rest⟩ sep =
        canonicalName ⟨p, rest⟩ sep ++ sep ++ name) ∧
    (∀ (name sep : String), canonicalName ⟨name, []⟩ sep = name) ∧
    (∀ (name : String) (rest : List String) (sep : String),
      canonicalName ⟨name, "" :: rest⟩ sep = name) := by
  refine ⟨rfl, rfl, ?_, fun name sep => rfl, fun name rest sep => rfl⟩
  intro name p rest sep hp
  have hlen : p.length > 0 := by
    cases p with
    | mk data =>
      cases data with
      | nil => simp at hp
      | cons c cs => simp [String.length]
  simp [canonicalName, canonicalNameAux, hlen]

/-- C9 witness: the general recurrence applied at the concrete chain
`"svc" :: [""]` under node `"worker"` with the default separator. -/
theorem canonicalName_chain_witness :
    canonicalName ⟨"worker", ["svc", ""]⟩ "::" =
      canonicalName ⟨"svc", [""]⟩ "::" ++ "::" ++ "worker" :=
  canonicalName_chain.2.2.1 "worker" "svc" [""] "::" (by decide)

/-- A string has length zero iff it is the empty string. -/
theorem string_length_eq_zero (s : String) : s.length = 0 ↔ s = "" := by
  cases s with
  | mk data =>
    cases data with
    | nil => simp
    | cons c cs => simp [String.length, String.ext_iff]

/-- C4 (confirmed): after `setLevel` (`setThreshold`) or `setTarget`
(`setSink`) on a node, every node of the resulting subtree — the node itself
and every descendant, recursively — reports the newly set value via its own
accessor, whatever per-descendant value it carried before. -/
theorem setLevel_setTarget_cascade (l : Logger) (lvl t : Nat) :
    (∀ n ∈ (Logger.setLevel lvl l).allNodes, n.level = lvl) ∧
    (∀ n ∈ (Logger.setTarget t l).allNodes, n.target = t) := by
  constructor
  · induction l using Logger.ind with
    | h nm t0 lv cs ih =>
      intro nd hnd
      rw [Logger.setLevel_node, Logger.allNodes_node] at hnd
      rcases List.mem_cons.mp hnd with h1 | h1
      · subst h1; rfl
      · rw [List.mem_flatten] at h1
        obtain ⟨s, hs, hns⟩ := h1
        rw [List.map_map, List.mem_map] at hs
        obtain ⟨c, hc, rfl⟩ := hs
        exact ih c hc nd hns
  · induction l using Logger.ind with
    | h nm t0 lv cs ih =>
      intro nd hnd
      rw [Logger.setTarget_node, Logger.allNodes_node] at hnd
      rcases List.mem_cons.mp hnd with h1 | h1
      · subst h1; rfl
      · rw [List.mem_flatten] at h1
        obtain ⟨s, hs, hns⟩ := h1
        rw [List.map_map, List.mem_map] at hs
        obtain ⟨c, hc, rfl⟩ := hs
        exact ih c hc nd hns

/-- C4 witness: on the two-node tree `"r"(level 3, target 0)` with child
`"c"(level 4, target 0)`, after `setLevel 5` the child reports level 5, and
after `setTarget 7` the child reports target 7. -/
theorem setLevel_setTarget_cascade_witness :
    (Logger.node "c" 0 5 []).level = 5 ∧ (Logger.node "c" 7 4 []).target = 7 := by
  constructor
  · exact (setLevel_setTarget_cascade
      (Logger.node "r" 0 3 [Logger.node "c" 0 4 []]) 5 7).1
      (Logger.node "c" 0 5 [])
      (by simp [Logger.setLevel_node, Logger.allNodes_node])
  · exact (setLevel_setTarget_cascade
      (Logger.node "r" 0 3 [Logger.node "c" 0 4 []]) 5 7).2
      (Logger.node "c" 7 4 [])
      (by simp [Logger.setTarget_node, Logger.allNodes_node])

/-- C5 (confirmed): `child(name)` on a parent node fails with
`InvalidArgument` on the empty name, leaving the parent unchanged; it is
idempotent — a second call with the same name returns the same node and the
same parent state, so at most one child is created — and when it creates a
child, the new node carries the parent's current threshold and target. -/
theorem child_getOrCreate (l : Logger) (name : String) :
    (name = "" → l.child name = (l, .error .invalidArgument)) ∧
    (∀ l1 c, l.child name = (l1, .ok c) → l1.child name = (l1, .ok c)) ∧
    (name ≠ "" → findChild l.children name = none →
      l.child name =
        (.node l.name l.target l.level
          (l.children ++ [.node name l.target l.level []]),
         .ok (.node name l.target l.level []))) := by
  obtain ⟨n0, t0, lv0, cs0⟩ := l
  refine ⟨?_, ?_, ?_⟩
  · intro h
    subst h
    rfl
  · intro l1 c h
    by_cases hn : name.length = 0
    · simp [Logger.child, hn] at h
    · rcases hfind : findChild cs0 name with _ | c0
      · simp only [Logger.child, hn, if_false, Logger.children, Logger.name,
          Logger.target, Logger.level, hfind] at h
        rw [Prod.mk.injEq] at h
        obtain ⟨hl, hc⟩ := h
        subst hl
        injection hc with hc
        subst hc
        have hfind2 : findChild (cs0 ++ [Logger.node name t0 lv0 []]) name =
            some (Logger.node name t0 lv0 []) := by
          simp only [findChild] at hfind ⊢
          rw [List.find?_append, hfind]
          simp [Logger.name]
        simp only [Logger.child, hn, if_false, Logger.children, hfind2]
      · simp only [Logger.child, hn, if_false, Logger.children, hfind] at h
        rw [Prod.mk.injEq] at h
        obtain ⟨hl, hc⟩ := h
        subst hl
        injection hc with hc
        subst hc
        simp only [Logger.child, hn, if_false, Logger.children, hfind]
  · intro hne hfind
    have hn : ¬ name.length = 0 := fun h =>
      hne ((string_length_eq_zero name).mp h)
    simp only [Logger.children] at hfind
    simp only [Logger.child, hn, if_false, Logger.children, Logger.name,
      Logger.target, Logger.level, hfind]

/-- C5 witness: creating child `"a"` of a fresh root on target 3 yields the
parent with one new child carrying the parent's threshold (`LEVEL_INFO = 2`)
and target 3. -/
theorem child_getOrCreate_witness :
    (Logger.mkRoot 3).child "a" =
      (Logger.node "" 3 2 [Logger.node "a" 3 2 []],
       .ok (Logger.node "a" 3 2 [])) := by
  have h := (child_getOrCreate (Logger.mkRoot 3) "a").2.2 (by decide) rfl
  simpa [Logger.mkRoot, Logger.name, Logger.target, Logger.level,
    Logger.children, LogLevel.toNat] using h

end Logging
